import Mathlib

set_option autoImplicit false

/-!
Verification development for the batched, deduplicating, scope-cached key
resolver ("data loader") pattern of this repository, together with the
repository's own batch functions and per-request loader construction from
`src/examples/18-dataloader.js`.

The loader itself (`DataLoader`) is required from the `dataloader` package and
its implementation is not part of the repository sources; the definitions in
the `Loader` section below are therefore modelled from the specification's
words (batch window, scheduler, dispatch executor, result demultiplexer,
cache).  The data arrays, the four batch functions, `createDataLoaders` and
`context` are translated directly from `src/examples/18-dataloader.js`.
-/

namespace DataloaderSpec

/-- One element of the array returned by a batch function: either a value or
an explicit per-key error marker. -/
inductive BElem (V E : Type) where
  | val : V → BElem V E
  | err : E → BElem V E
deriving DecidableEq, Repr

/-- The ways a key can fail: a per-key error marker, a wholesale batch-function
failure, or a result array of the wrong length (`BatchSizeMismatch`). -/
inductive LoadFail (E : Type) where
  | perKey : E → LoadFail E
  | wholeBatch : E → LoadFail E
  | sizeMismatch : LoadFail E
deriving DecidableEq, Repr

/-- The settled outcome delivered to a waiting `load` call. -/
inductive Outcome (V E : Type) where
  | ok : V → Outcome V E
  | fail : LoadFail E → Outcome V E
deriving DecidableEq, Repr

/-- A cache slot for a key: `Pending | Value(v) | Failed(e)`. -/
inductive CEntry (V E : Type) where
  | pending : CEntry V E
  | value : V → CEntry V E
  | failed : LoadFail E → CEntry V E
deriving DecidableEq, Repr

/-- The cache entry recording a settled outcome. -/
def entryOfOutcome {V E : Type} : Outcome V E → CEntry V E
  | .ok v => .value v
  | .fail f => .failed f

/-- The settled outcome corresponding to one positional batch result element:
a value resolves, an explicit error marker rejects with a per-key failure. -/
def outcomeOfElem {V E : Type} : BElem V E → Outcome V E
  | .val v => .ok v
  | .err e => .fail (.perKey e)

/-- The settled outcome stored in a cache entry, if the entry is settled. -/
def entryOutcome {V E : Type} : CEntry V E → Option (Outcome V E)
  | .pending => none
  | .value v => some (.ok v)
  | .failed f => some (.fail f)

/-- Modelled from the spec: the construction configuration of a Loader (the
`DataLoader` constructor of the `dataloader` package, which is not part of the
repository sources).  `batchFn` is the required caller-supplied bulk fetch,
returning either a wholesale failure or one element per key; `maxBatchSize`
is the optional size threshold, unlimited if absent. -/
structure LoaderCfg (K V E : Type) where
  batchFn : List K → Except E (List (BElem V E))
  maxBatchSize : Option Nat

/-- Modelled from the spec: the state of one Loader instance.  `cache` maps a
key to its cache slot; `window` is the current batch window (unique keys in
first-seen order); `reqs` are the pending requests (handle id, key) not yet
settled; `settledLog` records each settled request handle with its outcome;
`calls` logs every invocation of the batch function (the key list passed);
`nextId` numbers request handles. -/
structure LState (K V E : Type) where
  cache : K → Option (CEntry V E)
  window : List K
  reqs : List (Nat × K)
  settledLog : List (Nat × Outcome V E)
  calls : List (List K)
  nextId : Nat

/-- A freshly constructed Loader: empty cache, empty window, nothing pending,
no batch calls made. -/
def LState.init {K V E : Type} : LState K V E :=
  { cache := fun _ => none
    window := []
    reqs := []
    settledLog := []
    calls := []
    nextId := 0 }

/-- The outcome the result demultiplexer assigns to key `k` from the
position-aligned pairs `(window key, batch element)`. -/
def keyOutcome {K V E : Type} [DecidableEq K]
    (pairs : List (K × BElem V E)) (k : K) : Option (Outcome V E) :=
  (pairs.find? (fun p => p.1 = k)).map (fun p => outcomeOfElem p.2)

/-- Modelled from the spec: the result demultiplexer.  Given a per-key outcome
assignment `f`, it writes each settled outcome into the cache, settles every
pending request whose key was assigned an outcome (duplicates included, each
receiving the identical outcome), and releases those requests. -/
def settleWith {K V E : Type} (f : K → Option (Outcome V E))
    (st : LState K V E) : LState K V E :=
  { st with
    cache := fun k =>
      match f k with
      | some o => some (entryOfOutcome o)
      | none => st.cache k
    settledLog := st.settledLog ++
      st.reqs.filterMap (fun r => (f r.2).map (fun o => (r.1, o)))
    reqs := st.reqs.filter (fun r => (f r.2).isNone) }

/-- Modelled from the spec: the dispatch executor.  Closing a non-empty window
invokes the batch function exactly once with the window's deduplicated,
first-seen-ordered key list.  A wholesale failure marks every window key
`Failed` with that error; a result array of the wrong length marks every
window key `Failed` with `BatchSizeMismatch`; otherwise position `i` of the
result becomes the outcome of window key `i`.  An empty window is a no-op. -/
def dispatch {K V E : Type} [DecidableEq K]
    (cfg : LoaderCfg K V E) (st : LState K V E) : LState K V E :=
  if st.window = [] then st
  else
    let ws := st.window
    let base := { st with window := ([] : List K), calls := st.calls ++ [ws] }
    match cfg.batchFn ws with
    | .error e =>
        settleWith (fun k => if k ∈ ws then some (.fail (.wholeBatch e)) else none) base
    | .ok elems =>
        if elems.length = ws.length then
          settleWith (keyOutcome (ws.zip elems)) base
        else
          settleWith (fun k => if k ∈ ws then some (.fail .sizeMismatch) else none) base

/-- Modelled from the spec: the tick boundary.  Once the current synchronous
burst of `load` calls has run, the scheduler closes the window and hands it to
the dispatch executor. -/
def flush {K V E : Type} [DecidableEq K]
    (cfg : LoaderCfg K V E) (st : LState K V E) : LState K V E :=
  dispatch cfg st

/-- Modelled from the spec: `load(key)`.  A settled cache entry settles the new
handle immediately with the same outcome and does no batch work.  A pending
entry joins the new handle to the same pending request without enqueueing the
key again.  A cache miss creates a pending entry, enqueues the key into the
current window and registers the pending request; reaching `maxBatchSize`
unique keys closes the window immediately. -/
def load {K V E : Type} [DecidableEq K]
    (cfg : LoaderCfg K V E) (k : K) (st : LState K V E) : Nat × LState K V E :=
  let i := st.nextId
  match st.cache k with
  | some (.value v) =>
      (i, { st with nextId := i + 1, settledLog := st.settledLog ++ [(i, .ok v)] })
  | some (.failed f) =>
      (i, { st with nextId := i + 1, settledLog := st.settledLog ++ [(i, .fail f)] })
  | some .pending =>
      (i, { st with nextId := i + 1, reqs := st.reqs ++ [(i, k)] })
  | none =>
      let st1 :=
        { st with
          nextId := i + 1
          reqs := st.reqs ++ [(i, k)]
          cache := fun k' => if k' = k then some .pending else st.cache k'
          window := st.window ++ [k] }
      if cfg.maxBatchSize = some st1.window.length then (i, dispatch cfg st1)
      else (i, st1)

/-- Issue a sequence of `load` calls in order, keeping only the state. -/
def loadAll {K V E : Type} [DecidableEq K]
    (cfg : LoaderCfg K V E) (keys : List K) (st : LState K V E) : LState K V E :=
  keys.foldl (fun s k => (load cfg k s).2) st

/-- Modelled from the spec: `prime(key, value)` inserts a settled cache entry
without a fetch, only if no entry exists; an existing entry is overwritten
only when the explicit overwrite flag `force` is passed. -/
def prime {K V E : Type} [DecidableEq K]
    (k : K) (v : V) (force : Bool) (st : LState K V E) : LState K V E :=
  if force || (st.cache k).isNone then
    { st with cache := fun k' => if k' = k then some (.value v) else st.cache k' }
  else st

/-- Modelled from the spec: `clear(key)` removes any cache entry for `key`
without affecting other keys. -/
def clear {K V E : Type} [DecidableEq K] (k : K) (st : LState K V E) : LState K V E :=
  { st with cache := fun k' => if k' = k then none else st.cache k' }

/-- Modelled from the spec: `clearAll()` removes every cache entry. -/
def clearAll {K V E : Type} (st : LState K V E) : LState K V E :=
  { st with cache := fun _ => none }

/-- The deduplicated, first-seen-order key list of a request sequence: the
batch window accumulated by a burst of cache-missing `load` calls. -/
def firstSeen {K : Type} [DecidableEq K] (l : List K) : List K :=
  l.foldl (fun acc k => if k ∈ acc then acc else acc ++ [k]) []

/-! ### Source translation: `src/examples/18-dataloader.js`

The simulated database arrays and the four batch functions.  The JS query
counters, console logging and the 10 ms simulated delay are side effects
with no bearing on the returned arrays and are not part of the embedding.
`Array.find` with no match yields JS `undefined` and `find(...) || null`
yields JS `null`; both absent-record placeholders are embedded as
`Option.none` of the respective element type. -/

structure User where
  id : String
  name : String
  email : String
deriving DecidableEq, Repr

structure Post where
  id : String
  title : String
  content : String
  authorId : String
deriving DecidableEq, Repr

structure Comment where
  id : String
  content : String
  authorId : String
  postId : String
deriving DecidableEq, Repr

structure Profile where
  id : String
  bio : String
  website : String
  userId : String
deriving DecidableEq, Repr

def users : List User :=
  [ { id := "1", name := "John Doe", email := "john@example.com" }
  , { id := "2", name := "Jane Smith", email := "jane@example.com" }
  , { id := "3", name := "Bob Johnson", email := "bob@example.com" } ]

def posts : List Post :=
  [ { id := "1", title := "Post 1", content := "Content 1", authorId := "1" }
  , { id := "2", title := "Post 2", content := "Content 2", authorId := "1" }
  , { id := "3", title := "Post 3", content := "Content 3", authorId := "2" }
  , { id := "4", title := "Post 4", content := "Content 4", authorId := "3" } ]

def comments : List Comment :=
  [ { id := "1", content := "Comment 1", authorId := "2", postId := "1" }
  , { id := "2", content := "Comment 2", authorId := "3", postId := "1" }
  , { id := "3", content := "Comment 3", authorId := "1", postId := "2" } ]

def profiles : List Profile :=
  [ { id := "1", bio := "Developer", website := "https://johndoe.com", userId := "1" }
  , { id := "2", bio := "Designer", website := "https://janesmith.com", userId := "2" } ]

/-- First-match association-list lookup, mirroring a JS object built by
`forEach` assignment and read back by key. -/
def assocLookup {K A : Type} [DecidableEq K] (l : List (K × A)) (k : K) : Option A :=
  (l.find? (fun p => p.1 = k)).map (fun p => p.2)

/-- `getUsersByIds`: `userIds.map(id => users.find(u => u.id === id))`; a
missing id yields JS `undefined` (bare `find`, no fallback), embedded as
`none`. -/
def getUsersByIds (userIds : List String) : List (Option User) :=
  userIds.map (fun i => users.find? (fun u => u.id = i))

/-- `getPostsByUserIds`: builds `userPostsMap[userId] = posts.filter(...)` for
each requested id, then `userIds.map(userId => userPostsMap[userId] || [])`. -/
def getPostsByUserIds (userIds : List String) : List (List Post) :=
  let userPostsMap := userIds.map (fun uid => (uid, posts.filter (fun p => p.authorId = uid)))
  userIds.map (fun uid => (assocLookup userPostsMap uid).getD [])

/-- `getCommentsByPostIds`: builds `postCommentsMap[postId] = comments.filter(...)`
for each requested id, then `postIds.map(postId => postCommentsMap[postId] || [])`. -/
def getCommentsByPostIds (postIds : List String) : List (List Comment) :=
  let postCommentsMap := postIds.map (fun pid => (pid, comments.filter (fun c => c.postId = pid)))
  postIds.map (fun pid => (assocLookup postCommentsMap pid).getD [])

/-- `getProfilesByUserIds`: `userIds.map(userId => profiles.find(p => p.userId === userId) || null)`;
a missing id yields JS `null`, embedded as `none`. -/
def getProfilesByUserIds (userIds : List String) : List (Option Profile) :=
  userIds.map (fun uid => profiles.find? (fun p => p.userId = uid))

/-! ### Loader instances of `createDataLoaders` and the per-request `context`

`new DataLoader(batchFn)` passes no options: no `maxBatchSize`.  The four
batch functions never throw and never place an error marker in the result
array, so their loader-facing form wraps every element as a value. -/

def usersBatchFn (ids : List String) : Except String (List (BElem (Option User) String)) :=
  .ok ((getUsersByIds ids).map .val)

def userPostsBatchFn (ids : List String) : Except String (List (BElem (List Post) String)) :=
  .ok ((getPostsByUserIds ids).map .val)

def postCommentsBatchFn (ids : List String) : Except String (List (BElem (List Comment) String)) :=
  .ok ((getCommentsByPostIds ids).map .val)

def userProfilesBatchFn (ids : List String) : Except String (List (BElem (Option Profile) String)) :=
  .ok ((getProfilesByUserIds ids).map .val)

/-- A Loader instance: its construction configuration plus its state. -/
structure Loader (K V E : Type) where
  cfg : LoaderCfg K V E
  st : LState K V E

/-- `new DataLoader(batchFn)` with no options. -/
def Loader.new {K V E : Type} (bf : List K → Except E (List (BElem V E))) : Loader K V E :=
  { cfg := { batchFn := bf, maxBatchSize := none }, st := LState.init }

/-- The record returned by `createDataLoaders()`: four fresh loaders. -/
structure DataLoaders where
  userLoader : Loader String (Option User) String
  userPostsLoader : Loader String (List Post) String
  postCommentsLoader : Loader String (List Comment) String
  userProfileLoader : Loader String (Option Profile) String

/-- `createDataLoaders()`: constructs four fresh `DataLoader` instances. -/
def createDataLoaders : DataLoaders :=
  { userLoader := Loader.new usersBatchFn
    userPostsLoader := Loader.new userPostsBatchFn
    postCommentsLoader := Loader.new postCommentsBatchFn
    userProfileLoader := Loader.new userProfilesBatchFn }

/-- The per-request context value: `{ dataLoaders: createDataLoaders() }`. -/
structure Ctx where
  dataLoaders : DataLoaders

/-- The server's `context` function: builds new DataLoaders for each request,
ignoring the request object itself. -/
def context {Req : Type} (_req : Req) : Ctx :=
  { dataLoaders := createDataLoaders }

/-- Operations a request may perform on its user loader (the observable
surface the resolvers use). -/
inductive LoaderOp where
  | loadKey : String → LoaderOp
  | flushTick : LoaderOp

/-- Run one operation on the user loader of a context. -/
def runOp (ld : Loader String (Option User) String) : LoaderOp → Loader String (Option User) String
  | .loadKey k => { ld with st := (load ld.cfg k ld.st).2 }
  | .flushTick => { ld with st := flush ld.cfg ld.st }

/-- A request, abstractly: the loader operations its resolvers perform. -/
structure Request where
  ops : List LoaderOp

/-- Serve one request: build its context (fresh loaders), run its operations,
and observe the settled outcomes of its user loader. -/
def handleRequest (r : Request) : List (Nat × Outcome (Option User) String) :=
  (r.ops.foldl runOp (context r).dataLoaders.userLoader).st.settledLog

/-- Serve a sequence of requests in order, each through the server's
`context` function. -/
def serve : List Request → List (List (Nat × Outcome (Option User) String))
  | [] => []
  | r :: rs => handleRequest r :: serve rs

/-! ### Helper lemmas about the loader model -/

/-- Invariant of a loader that has only accumulated cache misses since its
last dispatch: a key is cached (as pending) exactly when it is in the
current window, and no key is settled. -/
def WindowAllPending {K V E : Type} [DecidableEq K] (st : LState K V E) : Prop :=
  ∀ k, st.cache k = if k ∈ st.window then some CEntry.pending else none

theorem windowAllPending_init {K V E : Type} [DecidableEq K] :
    WindowAllPending (LState.init : LState K V E) := by
  intro k
  simp [LState.init]

theorem load_windowAllPending {K V E : Type} [DecidableEq K]
    (cfg : LoaderCfg K V E) (k : K) (st : LState K V E)
    (hm : cfg.maxBatchSize = none) (h : WindowAllPending st) :
    WindowAllPending (load cfg k st).2 ∧
      (load cfg k st).2.window = (if k ∈ st.window then st.window else st.window ++ [k]) ∧
      (load cfg k st).2.calls = st.calls := by
  by_cases hk : k ∈ st.window
  · have hc : st.cache k = some CEntry.pending := by rw [h k, if_pos hk]
    refine ⟨?_, ?_, ?_⟩ <;> simp [load, hc, hk, h]
    intro k'
    exact h k'
  · have hc : st.cache k = none := by rw [h k, if_neg hk]
    have hload : (load cfg k st).2 =
        { st with
          nextId := st.nextId + 1
          reqs := st.reqs ++ [(st.nextId, k)]
          cache := fun k' => if k' = k then some CEntry.pending else st.cache k'
          window := st.window ++ [k] } := by
      simp only [load, hc]
      rw [hm]
      simp
    rw [hload]
    refine ⟨?_, ?_, ?_⟩
    · intro k'
      by_cases hk' : k' = k
      · simp [hk']
      · simp [hk', h k', List.mem_append]
    · simp [hk]
    · rfl

theorem loadAll_windowAllPending {K V E : Type} [DecidableEq K]
    (cfg : LoaderCfg K V E) (keys : List K) (st : LState K V E)
    (hm : cfg.maxBatchSize = none) (h : WindowAllPending st) :
    WindowAllPending (loadAll cfg keys st) ∧
      (loadAll cfg keys st).window =
        keys.foldl (fun acc k => if k ∈ acc then acc else acc ++ [k]) st.window ∧
      (loadAll cfg keys st).calls = st.calls := by
  induction keys generalizing st with
  | nil => exact ⟨h, rfl, rfl⟩
  | cons k ks ih =>
    obtain ⟨h1, h2, h3⟩ := load_windowAllPending cfg k st hm h
    obtain ⟨g1, g2, g3⟩ := ih (load cfg k st).2 h1
    refine ⟨g1, ?_, ?_⟩
    · rw [loadAll] at g2 ⊢
      simp only [List.foldl_cons]
      rw [g2, h2]
    · rw [loadAll] at g3 ⊢
      simp only [List.foldl_cons]
      rw [g3, h3]

theorem foldl_dedup_ne_nil {K : Type} [DecidableEq K] (keys : List K) (acc : List K)
    (h : acc ≠ [] ∨ keys ≠ []) :
    keys.foldl (fun acc k => if k ∈ acc then acc else acc ++ [k]) acc ≠ [] := by
  induction keys generalizing acc with
  | nil =>
    rcases h with h | h
    · exact h
    · exact absurd rfl h
  | cons k ks ih =>
    simp only [List.foldl_cons]
    apply ih
    left
    by_cases hk : k ∈ acc
    · rw [if_pos hk]
      rcases h with h | _
      · exact h
      · intro hnil; rw [hnil] at hk; exact absurd hk (List.not_mem_nil k)
    · rw [if_neg hk]
      intro hnil
      exact absurd hnil (List.append_ne_nil_of_right_ne_nil acc (by simp))

theorem firstSeen_ne_nil {K : Type} [DecidableEq K] (keys : List K) (h : keys ≠ []) :
    firstSeen keys ≠ [] :=
  foldl_dedup_ne_nil keys [] (Or.inr h)

theorem dispatch_fields {K V E : Type} [DecidableEq K]
    (cfg : LoaderCfg K V E) (st : LState K V E) (hne : st.window ≠ []) :
    (dispatch cfg st).window = [] ∧
      (dispatch cfg st).calls = st.calls ++ [st.window] ∧
      (dispatch cfg st).nextId = st.nextId := by
  rw [dispatch, if_neg hne]
  rcases hbf : cfg.batchFn st.window with e | elems
  · refine ⟨?_, ?_, ?_⟩ <;> simp [hbf, settleWith]
  · by_cases hl : elems.length = st.window.length
    · refine ⟨?_, ?_, ?_⟩ <;> simp [hbf, hl, settleWith]
    · refine ⟨?_, ?_, ?_⟩ <;> simp [hbf, hl, settleWith]

theorem find_zip_none {K V E : Type} [DecidableEq K]
    (ws : List K) (elems : List (BElem V E)) (k : K) (hk : k ∉ ws) :
    (ws.zip elems).find? (fun p => p.1 = k) = none := by
  induction ws generalizing elems with
  | nil => simp
  | cons a ws ih =>
    rcases elems with _ | ⟨e, elems⟩
    · simp
    · have hak : ¬ a = k := fun hc => hk (hc ▸ List.mem_cons_self a ws)
      have hk' : k ∉ ws := fun hc => hk (List.mem_cons_of_mem a hc)
      simp only [List.zip_cons_cons, List.find?_cons]
      rw [decide_eq_false hak]
      exact ih elems hk'

theorem keyOutcome_not_mem {K V E : Type} [DecidableEq K]
    (ws : List K) (elems : List (BElem V E)) (k : K) (hk : k ∉ ws) :
    keyOutcome (ws.zip elems) k = none := by
  rw [keyOutcome, find_zip_none ws elems k hk]
  rfl

theorem dispatch_cache_stable {K V E : Type} [DecidableEq K]
    (cfg : LoaderCfg K V E) (st : LState K V E) (k : K) (hk : k ∉ st.window) :
    (dispatch cfg st).cache k = st.cache k := by
  by_cases hne : st.window = []
  · rw [dispatch, if_pos hne]
  · rw [dispatch, if_neg hne]
    rcases hbf : cfg.batchFn st.window with e | elems
    · simp [hbf, settleWith, hk]
    · by_cases hl : elems.length = st.window.length
      · simp [hbf, hl, settleWith, keyOutcome_not_mem st.window elems k hk]
      · simp [hbf, hl, settleWith, hk]

theorem keyOutcome_zip_get {K V E : Type} [DecidableEq K]
    (ws : List K) (elems : List (BElem V E)) (hnd : ws.Nodup)
    (hl : elems.length = ws.length) (i : Nat) (hi : i < ws.length) :
    keyOutcome (ws.zip elems) (ws.get ⟨i, hi⟩)
      = some (outcomeOfElem (elems.get ⟨i, by omega⟩)) := by
  induction ws generalizing elems i with
  | nil => exact absurd hi (by simp)
  | cons a ws ih =>
    rcases elems with _ | ⟨e, elems⟩
    · simp at hl
    · rcases i with _ | i
      · simp [keyOutcome]
      · have ha : a ∉ ws := (List.nodup_cons.mp hnd).1
        have hnd' : ws.Nodup := (List.nodup_cons.mp hnd).2
        have hi' : i < ws.length := by simpa using hi
        have hl' : elems.length = ws.length := by simpa using hl
        have hane : ¬ a = ws.get ⟨i, hi'⟩ := fun hc => ha (hc ▸ List.get_mem ws i hi')
        have hrec := ih elems hnd' hl' i hi'
        simp only [keyOutcome, List.zip_cons_cons, List.find?_cons, List.get_cons_succ] at hrec ⊢
        rw [decide_eq_false hane]
        exact hrec

/-- The result demultiplexer on a successfully-sized batch result: position
`i` of the result array becomes the cache entry for window key `i`, and every
pending request joined to that key settles with the identical outcome. -/
theorem dispatch_demux {K V E : Type} [DecidableEq K]
    (cfg : LoaderCfg K V E) (st : LState K V E) (hnd : st.window.Nodup)
    (elems : List (BElem V E)) (hb : cfg.batchFn st.window = .ok elems)
    (hl : elems.length = st.window.length) (i : Nat) (hi : i < st.window.length) :
    (dispatch cfg st).cache (st.window.get ⟨i, hi⟩)
        = some (entryOfOutcome (outcomeOfElem (elems.get ⟨i, by omega⟩))) ∧
      ∀ n, (n, st.window.get ⟨i, hi⟩) ∈ st.reqs →
        (n, outcomeOfElem (elems.get ⟨i, by omega⟩)) ∈ (dispatch cfg st).settledLog := by
  have hne : st.window ≠ [] := by
    intro hcon
    rw [hcon] at hi
    exact absurd hi (by simp)
  have hko := keyOutcome_zip_get st.window elems hnd hl i hi
  simp only [List.get_eq_getElem] at hko
  rw [dispatch, if_neg hne]
  simp only [hb, hl, if_pos]
  constructor
  · simp [settleWith, hko]
  · intro n hn
    simp only [settleWith]
    refine List.mem_append_right _ (List.mem_filterMap.mpr ?_)
    exact ⟨(n, st.window.get ⟨i, hi⟩), hn, by simp [hko]⟩

/-! ### Claim C1 -/

/-- C1: for every sequence of `load` calls issued on one (fresh, unlimited
batch size) loader without an intervening dispatch, the batch function is
invoked exactly once — never zero times for a non-empty burst, never more
than once — with the deduplicated key list in first-seen order. -/
theorem C1_single_batch_invocation {K V E : Type} [DecidableEq K]
    (bf : List K → Except E (List (BElem V E))) (keys : List K) (hne : keys ≠ []) :
    (flush ⟨bf, none⟩ (loadAll ⟨bf, none⟩ keys LState.init)).calls = [firstSeen keys] := by
  obtain ⟨-, hw, hc⟩ :=
    loadAll_windowAllPending ⟨bf, none⟩ keys LState.init rfl windowAllPending_init
  have hwin : (loadAll ⟨bf, none⟩ keys LState.init).window = firstSeen keys := hw
  have hnw : (loadAll ⟨bf, none⟩ keys LState.init).window ≠ [] := by
    rw [hwin]
    exact firstSeen_ne_nil keys hne
  obtain ⟨-, hcalls, -⟩ := dispatch_fields ⟨bf, none⟩ (loadAll ⟨bf, none⟩ keys LState.init) hnw
  rw [flush, hcalls, hwin, hc]
  simp [LState.init]

/-- C1 witness: the key burst `["a","b","a","c"]` on the repository's user
loader produces exactly one batch call, with `["a","b","c"]`. -/
theorem C1_witness :
    (["a", "b", "a", "c"] : List String) ≠ [] ∧
      (flush ⟨usersBatchFn, none⟩
          (loadAll ⟨usersBatchFn, none⟩ ["a", "b", "a", "c"] LState.init)).calls
        = [["a", "b", "c"]] := by
  refine ⟨by decide, ?_⟩
  rw [C1_single_batch_invocation usersBatchFn ["a", "b", "a", "c"] (by decide)]
  rfl

/-! ### Claims C2, C3, C4 -/

/-- The spec's example batch function: `batchFn(["a","b","c"]) -> [1,2,3]`. -/
def exBatchFn (ks : List String) : Except String (List (BElem Nat String)) :=
  .ok (ks.map (fun k => if k = "a" then .val 1 else if k = "b" then .val 2 else .val 3))

/-- A batch function with an explicit error marker at key `"y"`. -/
def exErrBatchFn (ks : List String) : Except String (List (BElem Nat String)) :=
  .ok (ks.map (fun k => if k = "y" then .err "boom" else .val 10))

/-- A batch function returning an array of the wrong length for a two-key
window. -/
def badLenBatchFn (_ks : List String) : Except String (List (BElem Nat String)) :=
  .ok [.val 7]

/-- C2: for every dispatched window whose batch function returns an array of
the correct length, the element at position `i` becomes the settled cache
outcome for the window's key `i`, and every pending load call joined to that
key — duplicates included — receives the identical outcome. -/
theorem C2_positional_delivery {K V E : Type} [DecidableEq K]
    (cfg : LoaderCfg K V E) (st : LState K V E) (hnd : st.window.Nodup)
    (elems : List (BElem V E)) (hb : cfg.batchFn st.window = .ok elems)
    (hl : elems.length = st.window.length) (i : Nat) (hi : i < st.window.length) :
    (dispatch cfg st).cache (st.window.get ⟨i, hi⟩)
        = some (entryOfOutcome (outcomeOfElem (elems.get ⟨i, by omega⟩))) ∧
      ∀ n, (n, st.window.get ⟨i, hi⟩) ∈ st.reqs →
        (n, outcomeOfElem (elems.get ⟨i, by omega⟩)) ∈ (dispatch cfg st).settledLog :=
  dispatch_demux cfg st hnd elems hb hl i hi

/-- C2 witness: after the burst `load "a"; load "b"; load "a"; load "c"` and
`batchFn(["a","b","c"]) -> [1,2,3]`, the cache holds `1` for `"a"` and both
pending requests for `"a"` (handles 0 and 2) settle to `1`. -/
theorem C2_witness :
    (loadAll ⟨exBatchFn, none⟩ ["a", "b", "a", "c"] LState.init).window.Nodup ∧
      (dispatch ⟨exBatchFn, none⟩
          (loadAll ⟨exBatchFn, none⟩ ["a", "b", "a", "c"] LState.init)).cache "a"
        = some (CEntry.value 1) ∧
      ((0 : Nat), Outcome.ok (1 : Nat)) ∈
        (dispatch ⟨exBatchFn, none⟩
          (loadAll ⟨exBatchFn, none⟩ ["a", "b", "a", "c"] LState.init)).settledLog ∧
      ((2 : Nat), Outcome.ok (1 : Nat)) ∈
        (dispatch ⟨exBatchFn, none⟩
          (loadAll ⟨exBatchFn, none⟩ ["a", "b", "a", "c"] LState.init)).settledLog := by
  have h := C2_positional_delivery ⟨exBatchFn, none⟩
    (loadAll ⟨exBatchFn, none⟩ ["a", "b", "a", "c"] LState.init) (by decide)
    [.val 1, .val 2, .val 3] rfl (by decide) 0 (by decide)
  exact ⟨by decide, h.1, h.2 0 (by decide), h.2 2 (by decide)⟩

/-- C3: if the batch function returns an explicit error marker at exactly one
position `j`, only the load calls waiting on that position's key reject, with
that error as a per-key failure; waiters of every other key in the window
resolve normally with their positional values. -/
theorem C3_per_key_failure_isolated {K V E : Type} [DecidableEq K]
    (cfg : LoaderCfg K V E) (st : LState K V E) (hnd : st.window.Nodup)
    (elems : List (BElem V E)) (hb : cfg.batchFn st.window = .ok elems)
    (hl : elems.length = st.window.length) (j : Nat) (hj : j < st.window.length)
    (e : E) (hje : elems.get? j = some (.err e))
    (hone : ∀ i, i < elems.length → i ≠ j → ∀ e2, elems.get? i ≠ some (.err e2)) :
    (∀ n, (n, st.window.get ⟨j, hj⟩) ∈ st.reqs →
        (n, Outcome.fail (LoadFail.perKey e)) ∈ (dispatch cfg st).settledLog) ∧
      ∀ i (hi : i < st.window.length), i ≠ j →
        ∃ v, elems.get? i = some (.val v) ∧
          ∀ n, (n, st.window.get ⟨i, hi⟩) ∈ st.reqs →
            (n, Outcome.ok v) ∈ (dispatch cfg st).settledLog := by
  constructor
  · intro n hn
    have hj' : j < elems.length := by omega
    have hget : elems.get ⟨j, hj'⟩ = .err e := by
      rw [List.get?_eq_get hj'] at hje
      exact Option.some.inj hje
    have h := (dispatch_demux cfg st hnd elems hb hl j hj).2 n hn
    rw [hget] at h
    exact h
  · intro i hi hij
    have hi' : i < elems.length := by omega
    rcases hv : elems.get ⟨i, hi'⟩ with v | e2
    · refine ⟨v, ?_, ?_⟩
      · rw [List.get?_eq_get hi', hv]
      · intro n hn
        have h := (dispatch_demux cfg st hnd elems hb hl i hi).2 n hn
        rw [hv] at h
        exact h
    · exact absurd (by rw [List.get?_eq_get hi', hv]) (hone i hi' hij e2)

/-- C3 witness: window `["x","y"]` with an error marker at index 1 — the
request for `"x"` resolves to its value while the request for `"y"` rejects
with the per-key error. -/
theorem C3_witness :
    ((1 : Nat), Outcome.fail (LoadFail.perKey "boom")) ∈
        (dispatch ⟨exErrBatchFn, none⟩
          (loadAll ⟨exErrBatchFn, none⟩ ["x", "y"] LState.init)).settledLog ∧
      ((0 : Nat), Outcome.ok (10 : Nat)) ∈
        (dispatch ⟨exErrBatchFn, none⟩
          (loadAll ⟨exErrBatchFn, none⟩ ["x", "y"] LState.init)).settledLog := by
  have h := C3_per_key_failure_isolated ⟨exErrBatchFn, none⟩
    (loadAll ⟨exErrBatchFn, none⟩ ["x", "y"] LState.init) (by decide)
    [.val 10, .err "boom"] rfl (by decide) 1 (by decide) "boom" (by decide)
    (by
      intro i hi hij e2
      have hi0 : i = 0 := by simp at hi; omega
      subst hi0
      simp)
  refine ⟨h.1 1 (by decide), ?_⟩
  obtain ⟨v, hv, hw⟩ := h.2 0 (by decide) (by decide)
  have hv10 : v = 10 := by simpa using hv.symm
  subst hv10
  exact hw 0 (by decide)

/-- C4: if the batch function succeeds but returns an array whose length
differs from the window's key count, every key in the window is marked
`Failed` with the distinct `BatchSizeMismatch` error, every waiting request
rejects with it, and no request settles as a value in that dispatch. -/
theorem C4_batch_size_mismatch {K V E : Type} [DecidableEq K]
    (cfg : LoaderCfg K V E) (st : LState K V E)
    (elems : List (BElem V E)) (hb : cfg.batchFn st.window = .ok elems)
    (hl : ¬ elems.length = st.window.length) (hne : st.window ≠ []) :
    (∀ k, k ∈ st.window →
        (dispatch cfg st).cache k = some (CEntry.failed LoadFail.sizeMismatch)) ∧
      (∀ n k, (n, k) ∈ st.reqs → k ∈ st.window →
        (n, Outcome.fail LoadFail.sizeMismatch) ∈ (dispatch cfg st).settledLog) ∧
      ∀ n v, (n, Outcome.ok v) ∈ (dispatch cfg st).settledLog →
        (n, Outcome.ok v) ∈ st.settledLog := by
  rw [dispatch, if_neg hne]
  simp only [hb, hl, if_false]
  refine ⟨?_, ?_, ?_⟩
  · intro k hk
    simp [settleWith, hk, entryOfOutcome]
  · intro n k hn hk
    simp only [settleWith]
    refine List.mem_append_right _ (List.mem_filterMap.mpr ?_)
    exact ⟨(n, k), hn, by simp [hk]⟩
  · intro n v hmem
    simp only [settleWith, List.mem_append] at hmem
    rcases hmem with hmem | hmem
    · exact hmem
    · obtain ⟨⟨n2, k2⟩, _, heq⟩ := List.mem_filterMap.mp hmem
      by_cases hk2 : k2 ∈ st.window
      · simp [hk2] at heq
      · simp [hk2] at heq

/-- C4 witness: a two-key window whose batch function returns a single-element
array — both keys fail with `BatchSizeMismatch`, and no handle resolves as a
value. -/
theorem C4_witness :
    (dispatch ⟨badLenBatchFn, none⟩
          (loadAll ⟨badLenBatchFn, none⟩ ["a", "b"] LState.init)).cache "a"
        = some (CEntry.failed LoadFail.sizeMismatch) ∧
      ((0 : Nat), Outcome.fail LoadFail.sizeMismatch) ∈
        (dispatch ⟨badLenBatchFn, none⟩
          (loadAll ⟨badLenBatchFn, none⟩ ["a", "b"] LState.init)).settledLog ∧
      ((1 : Nat), Outcome.fail LoadFail.sizeMismatch) ∈
        (dispatch ⟨badLenBatchFn, none⟩
          (loadAll ⟨badLenBatchFn, none⟩ ["a", "b"] LState.init)).settledLog ∧
      ¬ ((0 : Nat), Outcome.ok (7 : Nat)) ∈
        (dispatch ⟨badLenBatchFn, none⟩
          (loadAll ⟨badLenBatchFn, none⟩ ["a", "b"] LState.init)).settledLog := by
  have h := C4_batch_size_mismatch ⟨badLenBatchFn, none⟩
    (loadAll ⟨badLenBatchFn, none⟩ ["a", "b"] LState.init)
    [.val 7] rfl (by decide) (by decide)
  refine ⟨h.1 "a" (by decide), h.2.1 0 "a" (by decide) (by decide),
    h.2.1 1 "b" (by decide) (by decide), ?_⟩
  intro hcon
  exact absurd (h.2.2 0 7 hcon) (by decide)

/-! ### Claim C5 -/

theorem load_fresh_w0 {K V E : Type} [DecidableEq K]
    (bf : List K → Except E (List (BElem V E))) (k : K) (st : LState K V E)
    (hc : st.cache k = none) (hw : st.window = []) :
    (load ⟨bf, some 2⟩ k st).2 =
      { st with
        nextId := st.nextId + 1
        reqs := st.reqs ++ [(st.nextId, k)]
        cache := fun k2 => if k2 = k then some CEntry.pending else st.cache k2
        window := [k] } := by
  simp only [load, hc, hw]
  simp

theorem load_fresh_w1 {K V E : Type} [DecidableEq K]
    (bf : List K → Except E (List (BElem V E))) (k x : K) (st : LState K V E)
    (hc : st.cache k = none) (hw : st.window = [x]) :
    (load ⟨bf, some 2⟩ k st).2 =
      dispatch ⟨bf, some 2⟩
        { st with
          nextId := st.nextId + 1
          reqs := st.reqs ++ [(st.nextId, k)]
          cache := fun k2 => if k2 = k then some CEntry.pending else st.cache k2
          window := [x, k] } := by
  simp only [load, hc, hw]
  simp

/-- C5: with `maxBatchSize = 2`, five distinct keys requested in one tick
produce exactly three batch invocations with window sizes 2, 2 and 1, and the
concatenation of the three windows equals the original request order. -/
theorem C5_maxBatchSize_splits_windows {K V E : Type} [DecidableEq K]
    (bf : List K → Except E (List (BElem V E))) (keys : List K)
    (hlen : keys.length = 5) (hnd : keys.Nodup) :
    ((flush ⟨bf, some 2⟩ (loadAll ⟨bf, some 2⟩ keys LState.init)).calls).map List.length
        = [2, 2, 1] ∧
      ((flush ⟨bf, some 2⟩ (loadAll ⟨bf, some 2⟩ keys LState.init)).calls).flatten = keys := by
  rcases keys with _ | ⟨a, keys⟩
  · simp at hlen
  rcases keys with _ | ⟨b, keys⟩
  · simp at hlen
  rcases keys with _ | ⟨c, keys⟩
  · simp at hlen
  rcases keys with _ | ⟨d, keys⟩
  · simp at hlen
  rcases keys with _ | ⟨e, keys⟩
  · simp at hlen
  rcases keys with _ | ⟨f, keys⟩
  swap
  · simp at hlen
  obtain ⟨hma, hnd1⟩ := List.nodup_cons.mp hnd
  obtain ⟨hmb, hnd2⟩ := List.nodup_cons.mp hnd1
  obtain ⟨hmc, hnd3⟩ := List.nodup_cons.mp hnd2
  obtain ⟨hmd, -⟩ := List.nodup_cons.mp hnd3
  have hba : ¬ b = a := by intro h; exact hma (by simp [h])
  have hca : ¬ c = a := by intro h; exact hma (by simp [h])
  have hda : ¬ d = a := by intro h; exact hma (by simp [h])
  have hea : ¬ e = a := by intro h; exact hma (by simp [h])
  have hcb : ¬ c = b := by intro h; exact hmb (by simp [h])
  have hdb : ¬ d = b := by intro h; exact hmb (by simp [h])
  have heb : ¬ e = b := by intro h; exact hmb (by simp [h])
  have hdc : ¬ d = c := by intro h; exact hmc (by simp [h])
  have hec : ¬ e = c := by intro h; exact hmc (by simp [h])
  have hed : ¬ e = d := by intro h; exact hmd (by simp [h])
  simp only [loadAll, List.foldl, flush]
  rw [load_fresh_w0 bf a LState.init rfl rfl]
  set s1 : LState K V E :=
    { LState.init with
      nextId := LState.init.nextId + 1
      reqs := LState.init.reqs ++ [(LState.init.nextId, a)]
      cache := fun k2 => if k2 = a then some CEntry.pending else LState.init.cache k2
      window := [a] } with hs1
  rw [load_fresh_w1 bf b a s1 (by rw [hs1]; exact if_neg hba) (by rw [hs1])]
  set s2' : LState K V E :=
    { s1 with
      nextId := s1.nextId + 1
      reqs := s1.reqs ++ [(s1.nextId, b)]
      cache := fun k2 => if k2 = b then some CEntry.pending else s1.cache k2
      window := [a, b] } with hs2
  obtain ⟨hw2, hc2, -⟩ := dispatch_fields ⟨bf, some 2⟩ s2' (by rw [hs2]; simp)
  have hst2c : (dispatch ⟨bf, some 2⟩ s2').cache c = none := by
    rw [dispatch_cache_stable ⟨bf, some 2⟩ s2' c (by rw [hs2]; simp [hca, hcb])]
    rw [hs2, hs1]
    simp [hcb, hca, LState.init]
  have hst2d : (dispatch ⟨bf, some 2⟩ s2').cache d = none := by
    rw [dispatch_cache_stable ⟨bf, some 2⟩ s2' d (by rw [hs2]; simp [hda, hdb])]
    rw [hs2, hs1]
    simp [hdb, hda, LState.init]
  have hst2e : (dispatch ⟨bf, some 2⟩ s2').cache e = none := by
    rw [dispatch_cache_stable ⟨bf, some 2⟩ s2' e (by rw [hs2]; simp [hea, heb])]
    rw [hs2, hs1]
    simp [heb, hea, LState.init]
  rw [load_fresh_w0 bf c (dispatch ⟨bf, some 2⟩ s2') hst2c hw2]
  set s3 : LState K V E :=
    { dispatch ⟨bf, some 2⟩ s2' with
      nextId := (dispatch ⟨bf, some 2⟩ s2').nextId + 1
      reqs := (dispatch ⟨bf, some 2⟩ s2').reqs
        ++ [((dispatch ⟨bf, some 2⟩ s2').nextId, c)]
      cache := fun k2 =>
        if k2 = c then some CEntry.pending else (dispatch ⟨bf, some 2⟩ s2').cache k2
      window := [c] } with hs3
  have hs3d : s3.cache d = none := by
    rw [hs3]
    simp [hdc, hst2d]
  rw [load_fresh_w1 bf d c s3 hs3d (by rw [hs3])]
  set s4' : LState K V E :=
    { s3 with
      nextId := s3.nextId + 1
      reqs := s3.reqs ++ [(s3.nextId, d)]
      cache := fun k2 => if k2 = d then some CEntry.pending else s3.cache k2
      window := [c, d] } with hs4
  obtain ⟨hw4, hc4, -⟩ := dispatch_fields ⟨bf, some 2⟩ s4' (by rw [hs4]; simp)
  have hst4e : (dispatch ⟨bf, some 2⟩ s4').cache e = none := by
    rw [dispatch_cache_stable ⟨bf, some 2⟩ s4' e (by rw [hs4]; simp [hec, hed])]
    rw [hs4, hs3]
    simp [hed, hec, hst2e]
  rw [load_fresh_w0 bf e (dispatch ⟨bf, some 2⟩ s4') hst4e hw4]
  set s5 : LState K V E :=
    { dispatch ⟨bf, some 2⟩ s4' with
      nextId := (dispatch ⟨bf, some 2⟩ s4').nextId + 1
      reqs := (dispatch ⟨bf, some 2⟩ s4').reqs
        ++ [((dispatch ⟨bf, some 2⟩ s4').nextId, e)]
      cache := fun k2 =>
        if k2 = e then some CEntry.pending else (dispatch ⟨bf, some 2⟩ s4').cache k2
      window := [e] } with hs5
  obtain ⟨-, hc5, -⟩ := dispatch_fields ⟨bf, some 2⟩ s5 (by rw [hs5]; simp)
  rw [hc5]
  have hs5calls : s5.calls = s2'.calls ++ [[a, b]] ++ [[c, d]] := by
    rw [hs5]
    show (dispatch ⟨bf, some 2⟩ s4').calls = s2'.calls ++ [[a, b]] ++ [[c, d]]
    rw [hc4, hs4]
    show s3.calls ++ [s4'.window] = s2'.calls ++ [[a, b]] ++ [[c, d]]
    rw [hs3]
    show (dispatch ⟨bf, some 2⟩ s2').calls ++ [s4'.window]
      = s2'.calls ++ [[a, b]] ++ [[c, d]]
    rw [hc2, hs4]
  have hs5w : s5.window = [e] := by rw [hs5]
  rw [hs5calls, hs5w, hs2, hs1]
  simp [LState.init]

/-- C5 witness: five distinct keys on the repository's user loader with
`maxBatchSize = 2` give exactly three batch calls of sizes 2, 2 and 1, in
request order. -/
theorem C5_witness :
    (["1", "2", "3", "4", "5"] : List String).length = 5 ∧
      (["1", "2", "3", "4", "5"] : List String).Nodup ∧
      ((flush ⟨usersBatchFn, some 2⟩
          (loadAll ⟨usersBatchFn, some 2⟩ ["1", "2", "3", "4", "5"]
            LState.init)).calls).map List.length = [2, 2, 1] ∧
      ((flush ⟨usersBatchFn, some 2⟩
          (loadAll ⟨usersBatchFn, some 2⟩ ["1", "2", "3", "4", "5"]
            LState.init)).calls).flatten = ["1", "2", "3", "4", "5"] := by
  have h := C5_maxBatchSize_splits_windows usersBatchFn ["1", "2", "3", "4", "5"]
    (by decide) (by decide)
  exact ⟨by decide, by decide, h.1, h.2⟩

/-! ### Claims C6, C7 -/

/-- C6: a settled cache entry (value or failure) that has not been cleared
makes every subsequent `load` of that key return the identical outcome with
no new batch work: the calls log, window and cache are untouched, the new
handle settles immediately with the cached outcome, and a repeated `load`
settles the same way again. -/
theorem C6_settled_cache_idempotent {K V E : Type} [DecidableEq K]
    (cfg : LoaderCfg K V E) (st : LState K V E) (k : K)
    (entry : CEntry V E) (o : Outcome V E)
    (hcached : st.cache k = some entry) (hsettled : entryOutcome entry = some o) :
    (load cfg k st).2.calls = st.calls ∧
      (load cfg k st).2.window = st.window ∧
      (load cfg k st).2.cache = st.cache ∧
      ((load cfg k st).1, o) ∈ (load cfg k st).2.settledLog ∧
      ((load cfg k (load cfg k st).2).1, o) ∈ (load cfg k (load cfg k st).2).2.settledLog ∧
      (load cfg k (load cfg k st).2).2.calls = st.calls := by
  rcases entry with _ | v | f
  · exact absurd hsettled (by simp [entryOutcome])
  · have ho : o = Outcome.ok v := by
      simp [entryOutcome] at hsettled
      exact hsettled.symm
    subst ho
    refine ⟨?_, ?_, ?_, ?_, ?_, ?_⟩ <;> simp [load, hcached]
  · have ho : o = Outcome.fail f := by
      simp [entryOutcome] at hsettled
      exact hsettled.symm
    subst ho
    refine ⟨?_, ?_, ?_, ?_, ?_, ?_⟩ <;> simp [load, hcached]

/-- C6 witness: a cache with value `42` for `"a"` answers two successive
`load "a"` calls with `42` each, without touching the calls log. -/
theorem C6_witness :
    (prime "a" 42 false (LState.init : LState String Nat String)).cache "a"
        = some (CEntry.value 42) ∧
      entryOutcome (CEntry.value 42 : CEntry Nat String) = some (Outcome.ok 42) ∧
      ((load ⟨exBatchFn, none⟩ "a"
          (prime "a" 42 false (LState.init : LState String Nat String))).1,
        Outcome.ok 42) ∈
        (load ⟨exBatchFn, none⟩ "a"
          (prime "a" 42 false (LState.init : LState String Nat String))).2.settledLog ∧
      (load ⟨exBatchFn, none⟩ "a"
          (prime "a" 42 false (LState.init : LState String Nat String))).2.calls
        = (prime "a" 42 false (LState.init : LState String Nat String)).calls := by
  have h := C6_settled_cache_idempotent ⟨exBatchFn, none⟩
    (prime "a" 42 false (LState.init : LState String Nat String)) "a"
    (CEntry.value 42) (Outcome.ok 42) (by decide) (by decide)
  exact ⟨by decide, by decide, h.2.2.2.1, h.1⟩

/-- C7: for a key with no cache entry, `prime k v` inserts a settled entry, so
a subsequent `load k` resolves to `v` with zero batch invocations (calls log
and window untouched); a second `prime k v2` without the overwrite flag
leaves the cached value `v` unchanged. -/
theorem C7_prime_inserts_does_not_overwrite {K V E : Type} [DecidableEq K]
    (cfg : LoaderCfg K V E) (st : LState K V E) (k : K) (v v2 : V)
    (hnone : st.cache k = none) :
    (prime k v false st).cache k = some (CEntry.value v) ∧
      (load cfg k (prime k v false st)).2.calls = st.calls ∧
      (load cfg k (prime k v false st)).2.window = st.window ∧
      ((load cfg k (prime k v false st)).1, Outcome.ok v) ∈
        (load cfg k (prime k v false st)).2.settledLog ∧
      (prime k v2 false (prime k v false st)).cache k = some (CEntry.value v) := by
  have hp : (prime k v false st).cache k = some (CEntry.value v) := by
    simp [prime, hnone]
  have hpcalls : (prime k v false st).calls = st.calls := by
    simp [prime, hnone]
  have hpwindow : (prime k v false st).window = st.window := by
    simp [prime, hnone]
  refine ⟨hp, ?_, ?_, ?_, ?_⟩
  · rw [← hpcalls]
    simp [load, hp]
  · rw [← hpwindow]
    simp [load, hp]
  · simp [load, hp]
  · simp [prime, hnone]

/-- C7 witness: `prime "a" 1` then `load "a"` resolves to `1` with no batch
call, and `prime "a" 2` without the overwrite flag leaves the cached `1`. -/
theorem C7_witness :
    ((LState.init : LState String Nat String).cache "a" = none) ∧
      (prime "a" 1 false (LState.init : LState String Nat String)).cache "a"
        = some (CEntry.value 1) ∧
      (load ⟨exBatchFn, none⟩ "a"
          (prime "a" 1 false (LState.init : LState String Nat String))).2.calls = [] ∧
      ((load ⟨exBatchFn, none⟩ "a"
          (prime "a" 1 false (LState.init : LState String Nat String))).1,
        Outcome.ok 1) ∈
        (load ⟨exBatchFn, none⟩ "a"
          (prime "a" 1 false (LState.init : LState String Nat String))).2.settledLog ∧
      (prime "a" 2 false
          (prime "a" 1 false (LState.init : LState String Nat String))).cache "a"
        = some (CEntry.value 1) := by
  have h := C7_prime_inserts_does_not_overwrite ⟨exBatchFn, none⟩
    (LState.init : LState String Nat String) "a" 1 2 rfl
  exact ⟨rfl, h.1, h.2.1, h.2.2.2.1, h.2.2.2.2⟩

/-! ### Claims C8, C9, C10 -/

theorem assocLookup_map_self {K A : Type} [DecidableEq K]
    (l : List K) (f : K → A) (a : K) (ha : a ∈ l) :
    assocLookup (l.map (fun x => (x, f x))) a = some (f a) := by
  induction l with
  | nil => exact absurd ha (List.not_mem_nil a)
  | cons x xs ih =>
    by_cases hxa : x = a
    · subst hxa
      simp [assocLookup]
    · have ha' : a ∈ xs := by
        rcases List.mem_cons.mp ha with h | h
        · exact absurd h.symm hxa
        · exact h
      have := ih ha'
      simp only [assocLookup, List.map_cons, List.find?_cons] at this ⊢
      rw [decide_eq_false hxa]
      exact this

/-- C8: each of the repository's four batch functions returns an array whose
length equals the input key count and whose element `i` is the result
computed for input key `i` — the find for users and profiles, the per-key
filter for posts and comments — so each satisfies the positional
`BatchOutcome` invariant. -/
theorem C8_batch_functions_positional (ids : List String) :
    (getUsersByIds ids).length = ids.length ∧
      (getPostsByUserIds ids).length = ids.length ∧
      (getCommentsByPostIds ids).length = ids.length ∧
      (getProfilesByUserIds ids).length = ids.length ∧
      ∀ i (hi : i < ids.length),
        (getUsersByIds ids).get? i
            = some (users.find? (fun u => u.id = ids.get ⟨i, hi⟩)) ∧
          (getPostsByUserIds ids).get? i
            = some (posts.filter (fun p => p.authorId = ids.get ⟨i, hi⟩)) ∧
          (getCommentsByPostIds ids).get? i
            = some (comments.filter (fun c => c.postId = ids.get ⟨i, hi⟩)) ∧
          (getProfilesByUserIds ids).get? i
            = some (profiles.find? (fun p => p.userId = ids.get ⟨i, hi⟩)) := by
  refine ⟨by simp [getUsersByIds], by simp [getPostsByUserIds],
    by simp [getCommentsByPostIds], by simp [getProfilesByUserIds], ?_⟩
  intro i hi
  have hget : ids.get? i = some (ids.get ⟨i, hi⟩) := List.get?_eq_get hi
  have hmem : ids.get ⟨i, hi⟩ ∈ ids := List.get_mem ids i hi
  refine ⟨?_, ?_, ?_, ?_⟩
  · rw [getUsersByIds, List.get?_map, hget]
    rfl
  · rw [getPostsByUserIds]
    simp only [List.get?_map, hget, Option.map_some']
    rw [assocLookup_map_self ids (fun uid => posts.filter (fun p => p.authorId = uid))
      (ids.get ⟨i, hi⟩) hmem]
    rfl
  · rw [getCommentsByPostIds]
    simp only [List.get?_map, hget, Option.map_some']
    rw [assocLookup_map_self ids (fun pid => comments.filter (fun c => c.postId = pid))
      (ids.get ⟨i, hi⟩) hmem]
    rfl
  · rw [getProfilesByUserIds, List.get?_map, hget]
    rfl

/-- C8 witness: for the key list `["1", "9"]`, all four batch functions return
two elements and element 0 is the result computed for id `"1"`. -/
theorem C8_witness :
    ((0 : Nat) < (["1", "9"] : List String).length) ∧
      (getUsersByIds ["1", "9"]).length = 2 ∧
      (getUsersByIds ["1", "9"]).get? 0
        = some (users.find? (fun u => u.id = "1")) ∧
      (getPostsByUserIds ["1", "9"]).get? 0
        = some (posts.filter (fun p => p.authorId = "1")) := by
  have h := C8_batch_functions_positional ["1", "9"]
  have h0 := h.2.2.2.2 0 (by decide)
  exact ⟨by decide, h.1, h0.1, h0.2.1⟩

/-- C9: every call of the server's `context` function builds four fresh
loaders via `createDataLoaders` — each starting from the empty initial state —
and serving a sequence of requests gives each request a response that is a
function of that request alone: no cache state crosses operation
boundaries. -/
theorem C9_request_isolation :
    (∀ (Req : Type) (req : Req), (context req).dataLoaders = createDataLoaders) ∧
      createDataLoaders.userLoader.st = LState.init ∧
      createDataLoaders.userPostsLoader.st = LState.init ∧
      createDataLoaders.postCommentsLoader.st = LState.init ∧
      createDataLoaders.userProfileLoader.st = LState.init ∧
      ∀ (rs : List Request) (i : Nat) (hi : i < rs.length),
        (serve rs).get? i = some (handleRequest (rs.get ⟨i, hi⟩)) := by
  refine ⟨fun _ _ => rfl, rfl, rfl, rfl, rfl, ?_⟩
  intro rs
  induction rs with
  | nil =>
    intro i hi
    exact absurd hi (by simp)
  | cons r rs ih =>
    intro i hi
    rcases i with _ | i
    · rfl
    · exact ih i (by simpa using hi)

/-- C9 witness: serving two requests, the second request's response equals
`handleRequest` of that request alone, unaffected by the first request's
loads. -/
theorem C9_witness :
    ((1 : Nat) <
        ([⟨[LoaderOp.loadKey "1", LoaderOp.flushTick]⟩, ⟨[]⟩] : List Request).length) ∧
      (serve [⟨[LoaderOp.loadKey "1", LoaderOp.flushTick]⟩, ⟨[]⟩]).get? 1
        = some (handleRequest ⟨[]⟩) := by
  exact ⟨by decide,
    C9_request_isolation.2.2.2.2.2
      [⟨[LoaderOp.loadKey "1", LoaderOp.flushTick]⟩, ⟨[]⟩] 1 (by decide)⟩

/-- C10: an input id matching no record yields a non-error placeholder, not a
per-key error marker: `getUsersByIds` yields the bare missing `find` result,
`getProfilesByUserIds` the `find || null` result (both embedded as `none`),
and the posts/comments functions an empty array — and a `load` of such an id
through the user loader settles successfully with that placeholder, never
rejecting. -/
theorem C10_missing_id_resolves (k : String)
    (hu : ∀ u ∈ users, ¬ u.id = k)
    (hp : ∀ p ∈ posts, ¬ p.authorId = k)
    (hc : ∀ c ∈ comments, ¬ c.postId = k)
    (hpr : ∀ pr ∈ profiles, ¬ pr.userId = k) :
    getUsersByIds [k] = [none] ∧
      getPostsByUserIds [k] = [[]] ∧
      getCommentsByPostIds [k] = [[]] ∧
      getProfilesByUserIds [k] = [none] ∧
      (flush ⟨usersBatchFn, none⟩
          (load ⟨usersBatchFn, none⟩ k LState.init).2).settledLog
        = [(0, Outcome.ok none)] := by
  have hfu : users.find? (fun u => u.id = k) = none := by
    rw [List.find?_eq_none]
    intro u hu2
    simpa using hu u hu2
  have hfp : posts.filter (fun p => p.authorId = k) = [] := by
    rw [List.filter_eq_nil_iff]
    intro p hp2
    simpa using hp p hp2
  have hfc : comments.filter (fun c => c.postId = k) = [] := by
    rw [List.filter_eq_nil_iff]
    intro c hc2
    simpa using hc c hc2
  have hfpr : profiles.find? (fun p => p.userId = k) = none := by
    rw [List.find?_eq_none]
    intro p hp2
    simpa using hpr p hp2
  refine ⟨?_, ?_, ?_, ?_, ?_⟩
  · simp [getUsersByIds, hfu]
  · simp [getPostsByUserIds, assocLookup, hfp]
  · simp [getCommentsByPostIds, assocLookup, hfc]
  · simp [getProfilesByUserIds, hfpr]
  · have hload : (load ⟨usersBatchFn, none⟩ k (LState.init : LState String (Option User) String)).2
        = { LState.init with
            nextId := 1
            reqs := [(0, k)]
            cache := fun k2 => if k2 = k then some CEntry.pending else none
            window := [k] } := by
      simp [load, LState.init]
    rw [hload, flush, dispatch]
    rw [if_neg (by simp)]
    have hbf : usersBatchFn [k] = .ok [.val none] := by
      rw [usersBatchFn]
      simp [getUsersByIds, hfu]
    simp [hbf, settleWith, keyOutcome, outcomeOfElem, LState.init]

/-- C10 witness: id `"9"` matches no user, post, comment or profile; all four
batch functions return their placeholder, and a user-loader `load "9"`
resolves (to the missing-record placeholder) rather than rejecting. -/
theorem C10_witness :
    getUsersByIds ["9"] = [none] ∧
      getPostsByUserIds ["9"] = [[]] ∧
      getCommentsByPostIds ["9"] = [[]] ∧
      getProfilesByUserIds ["9"] = [none] ∧
      (flush ⟨usersBatchFn, none⟩
          (load ⟨usersBatchFn, none⟩ "9" LState.init).2).settledLog
        = [(0, Outcome.ok none)] :=
  C10_missing_id_resolves "9" (by decide) (by decide) (by decide) (by decide)

end DataloaderSpec
